import Mathlib

/-!
Verification of the geometry core of the europa-awareness-map repository:
the spherical coordinate converter
(`src/europa-app/src/components/EuropaSphere/utils.ts`) and the two
revisions of the ray-sphere intersection routine
(`EuropaSphere.tsx`, intersection `useEffect`, and `src/unnamed/part_003`,
`calculateIntersection`).

JavaScript numbers are modelled as real numbers; `THREE.Vector3` is
modelled as a record of three reals.  THREE.js vector methods such as
`sub`, `add`, `normalize` and `multiplyScalar` mutate their receiver and
return it; the embedding below threads those mutations explicitly where
the source relies on them (notably `normal.multiplyScalar(radius)` inside
the snap-to-surface step, which scales the `normal` binding in place).
-/

/-- Model of `THREE.Vector3`: three real components. -/
structure Vec3 where
  x : ℝ
  y : ℝ
  z : ℝ

/-- Componentwise sum, the value of `a.clone().add(b)`. -/
def Vec3.add (a b : Vec3) : Vec3 :=
  ⟨a.x + b.x, a.y + b.y, a.z + b.z⟩

/-- Componentwise difference, the value of `a.clone().sub(b)`. -/
def Vec3.sub (a b : Vec3) : Vec3 :=
  ⟨a.x - b.x, a.y - b.y, a.z - b.z⟩

/-- Scalar multiple, the value of `v.clone().multiplyScalar(s)`. -/
def Vec3.smul (s : ℝ) (v : Vec3) : Vec3 :=
  ⟨s * v.x, s * v.y, s * v.z⟩

/-- Dot product, `a.dot(b)`. -/
def Vec3.dot (a b : Vec3) : ℝ :=
  a.x * b.x + a.y * b.y + a.z * b.z

/-- Euclidean length, `v.length()`. -/
noncomputable def Vec3.length (v : Vec3) : ℝ :=
  Real.sqrt (Vec3.dot v v)

/-- Value of `v.clone().normalize()`: each component divided by the
length.  (For a zero vector Lean division by zero yields `0`; the
source only ever normalizes vectors it has checked, or that are
mathematically guaranteed, to be nonzero.) -/
noncomputable def Vec3.normalize (v : Vec3) : Vec3 :=
  ⟨v.x / v.length, v.y / v.length, v.z / v.length⟩

/-- Return type of `vectorToLatLong` in `utils.ts`: `{ lat, long }`,
both in degrees.  The spec calls this entity `GeoCoordinate`. -/
structure GeoCoord where
  lat : ℝ
  long : ℝ

/-- Function `latLongToVector3` from `utils.ts` (the spec's `geoToPoint`):
degree inputs are converted to radians and the standard
spherical-to-Cartesian formulas are applied. -/
noncomputable def latLongToVector3 (lat long radius : ℝ) : Vec3 :=
  ⟨radius * Real.cos (lat * Real.pi / 180) * Real.cos (long * Real.pi / 180),
   radius * Real.sin (lat * Real.pi / 180),
   radius * Real.cos (lat * Real.pi / 180) * Real.sin (long * Real.pi / 180)⟩

/-- Model of `Math.atan2 y x`: the argument of the complex number
the argument of the complex number `x + y i`, which like `atan2` lies in
the half-open interval `(-pi, pi]` and is `0` at the origin. -/
noncomputable def atan2 (y x : ℝ) : ℝ :=
  Complex.arg (Complex.ofReal x + Complex.ofReal y * Complex.I)

/-- Latitude computed by `vectorToLatLong` before any special-casing:
`asin` of the clamped normalized `y` component, converted to degrees
(`utils.ts` lines 98-110). -/
noncomputable def computedLat (position : Vec3) : ℝ :=
  Real.arcsin (max (-1) (min 1 (position.y / position.length))) * (180 / Real.pi)

/-- Longitude computed by `vectorToLatLong` before wrapping and the pole
check: `atan2` of the normalized `z` and `x` components, converted to
degrees (`utils.ts` lines 98-111). -/
noncomputable def computedLong (position : Vec3) : ℝ :=
  atan2 (position.z / position.length) (position.x / position.length) * (180 / Real.pi)

/-- The two wrap steps of `vectorToLatLong` (`utils.ts` lines 114-115):
`if (long < -180) long += 360; if (long > 180) long -= 360;`. -/
noncomputable def wrapLong (long : ℝ) : ℝ :=
  let l1 := if long < -180 then long + 360 else long
  if l1 > 180 then l1 - 360 else l1

/-- Function `vectorToLatLong` from `utils.ts` (the spec's `pointToGeo`).
A zero-length input hits the guard at lines 84-87, which logs to the
console and returns `{ lat: 0, long: 0 }` (it does not throw).  The
`radius` parameter is unused by the source ("kept for API consistency").
The pole check (lines 119-121) forces `long = 0` when the computed
latitude is within `1e-10` degrees of plus or minus 90. -/
noncomputable def vectorToLatLong (position : Vec3) (radius : ℝ) : GeoCoord :=
  if position.length = 0 then ⟨0, 0⟩
  else
    let lat := computedLat position
    let long := wrapLong (computedLong position)
    if |(|lat| - 90)| < 1 / 10 ^ 10 then ⟨lat, 0⟩ else ⟨lat, long⟩

/-- Quadratic coefficient `a = rayDirection.dot(rayDirection)`
(both revisions; `part_003` line 189). -/
def quadA (rayDirection : Vec3) : ℝ :=
  Vec3.dot rayDirection rayDirection

/-- Quadratic coefficient `b = 2 * centerToOrigin.dot(rayDirection)`
where `centerToOrigin = rayOrigin - spherePosition`
(`part_003` lines 186-190). -/
def quadB (rayOrigin rayDirection spherePos : Vec3) : ℝ :=
  2 * Vec3.dot (Vec3.sub rayOrigin spherePos) rayDirection

/-- Quadratic coefficient
`c = centerToOrigin.dot(centerToOrigin) - radius * radius`
(`part_003` line 191). -/
def quadC (rayOrigin spherePos : Vec3) (radius : ℝ) : ℝ :=
  Vec3.dot (Vec3.sub rayOrigin spherePos) (Vec3.sub rayOrigin spherePos) - radius * radius

/-- Discriminant `b * b - 4 * a * c` (`part_003` line 194). -/
def discriminant (rayOrigin rayDirection spherePos : Vec3) (radius : ℝ) : ℝ :=
  quadB rayOrigin rayDirection spherePos * quadB rayOrigin rayDirection spherePos -
    4 * quadA rayDirection * quadC rayOrigin spherePos radius

/-- Root `t1 = (-b - Math.sqrt(discriminant)) / (2 * a)` (`part_003` line 199). -/
noncomputable def rootT1 (rayOrigin rayDirection spherePos : Vec3) (radius : ℝ) : ℝ :=
  (-(quadB rayOrigin rayDirection spherePos) -
      Real.sqrt (discriminant rayOrigin rayDirection spherePos radius)) /
    (2 * quadA rayDirection)

/-- Root `t2 = (-b + Math.sqrt(discriminant)) / (2 * a)` (`part_003` line 200). -/
noncomputable def rootT2 (rayOrigin rayDirection spherePos : Vec3) (radius : ℝ) : ℝ :=
  (-(quadB rayOrigin rayDirection spherePos) +
      Real.sqrt (discriminant rayOrigin rayDirection spherePos radius)) /
    (2 * quadA rayDirection)

/-- The record returned by `calculateIntersection` in `part_003`
(lines 232-236): `{ position, normal, normalizedPosition }`.  The spec's
`SurfacePoint` has the first two fields. -/
structure SurfacePoint where
  position : Vec3
  normal : Vec3
  normalizedPosition : Vec3

/-- The surface-point construction shared verbatim by both revisions
(`part_003` lines 223-236, `EuropaSphere.tsx` lines 202-214) once a ray
parameter `t` has been selected:

```
const intersectionPoint = rayOrigin.clone().add(rayDirection.clone().multiplyScalar(t));
const normal = intersectionPoint.clone().sub(spherePosition).normalize();
const finalPosition = spherePosition.clone().add(normal.multiplyScalar(radius));
```

`normal.multiplyScalar(radius)` mutates `normal` in place (THREE.js
vector methods operate on `this`), so from that line on the `normal`
binding holds `radius` times the unit outward vector; it is that scaled
vector that `part_003` returns as `normal` and (cloned) as
`normalizedPosition`.  The final position is unaffected:
`spherePosition + radius * unit`. -/
noncomputable def surfaceAt (rayOrigin rayDirection spherePos : Vec3) (radius t : ℝ) :
    SurfacePoint :=
  let intersectionPoint := Vec3.add rayOrigin (Vec3.smul t rayDirection)
  let unitNormal := Vec3.normalize (Vec3.sub intersectionPoint spherePos)
  let scaledNormal := Vec3.smul radius unitNormal
  let finalPosition := Vec3.add spherePos scaledNormal
  ⟨finalPosition, scaledNormal, scaledNormal⟩

/-- Geometric core of `calculateIntersection` from `part_003`
(lines 185-240), the later revision with the inside/outside branch:
the ray has already been produced by the camera collaborator, so the
function is modelled from the point where `rayOrigin`, `rayDirection`
and `spherePosition` are in hand.  Returns `none` for a negative
discriminant and when neither root is positive; otherwise selects
`min t1 t2` when both roots are positive, else the single positive
root. -/
noncomputable def calculateIntersection (rayOrigin rayDirection spherePos : Vec3)
    (radius : ℝ) : Option SurfacePoint :=
  if discriminant rayOrigin rayDirection spherePos radius ≥ 0 then
    if 0 < rootT1 rayOrigin rayDirection spherePos radius ∧
        0 < rootT2 rayOrigin rayDirection spherePos radius then
      some (surfaceAt rayOrigin rayDirection spherePos radius
        (min (rootT1 rayOrigin rayDirection spherePos radius)
          (rootT2 rayOrigin rayDirection spherePos radius)))
    else if 0 < rootT1 rayOrigin rayDirection spherePos radius then
      some (surfaceAt rayOrigin rayDirection spherePos radius
        (rootT1 rayOrigin rayDirection spherePos radius))
    else if 0 < rootT2 rayOrigin rayDirection spherePos radius then
      some (surfaceAt rayOrigin rayDirection spherePos radius
        (rootT2 rayOrigin rayDirection spherePos radius))
    else none
  else none

/-- Geometric core of the intersection `useEffect` in `EuropaSphere.tsx`
(lines 188-217), the earlier revision: whenever the discriminant is
non-negative it unconditionally selects `t = Math.min(t1, t2)`
(line 199) and stores the resulting surface point; on a negative
discriminant it stores `null`.  The component keeps only
`finalPosition` in state, but lines 202-212 compute the full surface
point by the same code as `part_003`, which `surfaceAt` captures. -/
noncomputable def intersectionEffect (rayOrigin rayDirection spherePos : Vec3)
    (radius : ℝ) : Option SurfacePoint :=
  if discriminant rayOrigin rayDirection spherePos radius ≥ 0 then
    some (surfaceAt rayOrigin rayDirection spherePos radius
      (min (rootT1 rayOrigin rayDirection spherePos radius)
        (rootT2 rayOrigin rayDirection spherePos radius)))
  else none

lemma sqrt_four : Real.sqrt 4 = 2 := by
  rw [show (4:ℝ) = 2 ^ 2 by norm_num, Real.sqrt_sq (by norm_num : (0:ℝ) ≤ 2)]

lemma sqrt_sixteen : Real.sqrt 16 = 4 := by
  rw [show (16:ℝ) = 4 ^ 2 by norm_num, Real.sqrt_sq (by norm_num : (0:ℝ) ≤ 4)]

example :
    calculateIntersection ⟨0,0,0⟩ ⟨1,0,0⟩ ⟨0,0,0⟩ 2 =
      some ⟨⟨2,0,0⟩, ⟨2,0,0⟩, ⟨2,0,0⟩⟩ := by
  have hd : discriminant ⟨0,0,0⟩ ⟨1,0,0⟩ ⟨0,0,0⟩ 2 = 16 := by
    norm_num [discriminant, quadA, quadB, quadC, Vec3.dot, Vec3.sub]
  have h1 : rootT1 ⟨0,0,0⟩ ⟨1,0,0⟩ ⟨0,0,0⟩ 2 = -2 := by
    norm_num [rootT1, hd, sqrt_sixteen, quadA, quadB, Vec3.dot, Vec3.sub]
  have h2 : rootT2 ⟨0,0,0⟩ ⟨1,0,0⟩ ⟨0,0,0⟩ 2 = 2 := by
    norm_num [rootT2, hd, sqrt_sixteen, quadA, quadB, Vec3.dot, Vec3.sub]
  rw [calculateIntersection, if_pos (by rw [hd]; norm_num)]
  rw [if_neg (by rw [h1]; norm_num), if_neg (by rw [h1]; norm_num),
    if_pos (by rw [h2]; norm_num), h2]
  norm_num [surfaceAt, Vec3.add, Vec3.sub, Vec3.smul, Vec3.normalize, Vec3.length,
    Vec3.dot, sqrt_four]

lemma rootT1_quad (o d s : Vec3) (r : ℝ) (hA : quadA d = 1)
    (hdisc : 0 ≤ discriminant o d s r) :
    rootT1 o d s r * rootT1 o d s r + quadB o d s * rootT1 o d s r + quadC o s r = 0 := by
  have hs := Real.mul_self_sqrt hdisc
  have hD : discriminant o d s r = quadB o d s * quadB o d s - 4 * quadC o s r := by
    rw [discriminant, hA]; ring
  rw [rootT1, hA]
  field_simp
  nlinarith [hs, hD]

lemma rootT2_quad (o d s : Vec3) (r : ℝ) (hA : quadA d = 1)
    (hdisc : 0 ≤ discriminant o d s r) :
    rootT2 o d s r * rootT2 o d s r + quadB o d s * rootT2 o d s r + quadC o s r = 0 := by
  have hs := Real.mul_self_sqrt hdisc
  have hD : discriminant o d s r = quadB o d s * quadB o d s - 4 * quadC o s r := by
    rw [discriminant, hA]; ring
  rw [rootT2, hA]
  field_simp
  nlinarith [hs, hD]

lemma point_on_sphere (o d s : Vec3) (r t : ℝ) (hA : quadA d = 1)
    (hquad : t * t + quadB o d s * t + quadC o s r = 0) :
    Vec3.dot (Vec3.sub (Vec3.add o (Vec3.smul t d)) s)
      (Vec3.sub (Vec3.add o (Vec3.smul t d)) s) = r * r := by
  simp only [quadA, quadB, quadC, Vec3.dot, Vec3.sub, Vec3.add, Vec3.smul] at hA hquad ⊢
  linear_combination hquad + t * t * hA

lemma length_at_root (o d s : Vec3) (r t : ℝ) (hr : 0 < r) (hA : quadA d = 1)
    (hquad : t * t + quadB o d s * t + quadC o s r = 0) :
    Vec3.length (Vec3.sub (Vec3.add o (Vec3.smul t d)) s) = r := by
  rw [Vec3.length, point_on_sphere o d s r t hA hquad,
    show r * r = r ^ 2 by ring, Real.sqrt_sq hr.le]

lemma surfaceAt_position (o d s : Vec3) (r t : ℝ) (hr : 0 < r) (hA : quadA d = 1)
    (hquad : t * t + quadB o d s * t + quadC o s r = 0) :
    (surfaceAt o d s r t).position = Vec3.add o (Vec3.smul t d) := by
  have hlen := length_at_root o d s r t hr hA hquad
  simp only [Vec3.add, Vec3.smul, Vec3.sub] at hlen
  simp only [surfaceAt, Vec3.normalize, Vec3.smul, Vec3.add, Vec3.sub, Vec3.mk.injEq, hlen]
  refine ⟨?_, ?_, ?_⟩ <;> field_simp

lemma point_ne_of_ne (o d : Vec3) (t u : ℝ) (hA : quadA d = 1) (hne : t ≠ u) :
    Vec3.add o (Vec3.smul t d) ≠ Vec3.add o (Vec3.smul u d) := by
  intro h
  have hx : (t - u) * d.x = 0 := by
    have := congrArg Vec3.x h
    simp only [Vec3.add, Vec3.smul] at this
    linarith
  have hy : (t - u) * d.y = 0 := by
    have := congrArg Vec3.y h
    simp only [Vec3.add, Vec3.smul] at this
    linarith
  have hz : (t - u) * d.z = 0 := by
    have := congrArg Vec3.z h
    simp only [Vec3.add, Vec3.smul] at this
    linarith
  have htu : t - u ≠ 0 := sub_ne_zero.mpr hne
  have hdx : d.x = 0 := by rcases mul_eq_zero.mp hx with h0 | h0; exact absurd h0 htu; exact h0
  have hdy : d.y = 0 := by rcases mul_eq_zero.mp hy with h0 | h0; exact absurd h0 htu; exact h0
  have hdz : d.z = 0 := by rcases mul_eq_zero.mp hz with h0 | h0; exact absurd h0 htu; exact h0
  rw [quadA, Vec3.dot, hdx, hdy, hdz] at hA
  norm_num at hA

lemma rootT1_le_rootT2 (o d s : Vec3) (r : ℝ) (hA : quadA d = 1) :
    rootT1 o d s r ≤ rootT2 o d s r := by
  have hq := Real.sqrt_nonneg (discriminant o d s r)
  rw [rootT1, rootT2, hA]
  have h2 : (0:ℝ) < 2 * 1 := by norm_num
  rw [div_le_div_iff₀ h2 h2]
  nlinarith

/-- Claim C2: `calculateIntersection` (the `part_003` revision of intersect)
returns `none` exactly when there is no valid forward intersection — when
the discriminant is negative, or when it is non-negative but neither root
`t1` nor `t2` is positive; in particular a ray from `(0,0,5)` in direction
`(0,0,1)` against the unit sphere at the origin (both roots negative)
yields `none`. -/
theorem intersect_none_iff :
    (∀ o d s : Vec3, ∀ r : ℝ,
      (calculateIntersection o d s r = none ↔
        discriminant o d s r < 0 ∨ (rootT1 o d s r ≤ 0 ∧ rootT2 o d s r ≤ 0))) ∧
    calculateIntersection ⟨0,0,5⟩ ⟨0,0,1⟩ ⟨0,0,0⟩ 1 = none := by
  constructor
  · intro o d s r
    rw [calculateIntersection]
    split_ifs with h1 h2 h3 h4
    · simp [not_lt.mpr h1, h2.1.not_le]
    · simp [not_lt.mpr h1, h3.not_le]
    · simp [not_lt.mpr h1, h4.not_le]
    · simp [not_lt.mpr h1, not_lt.mp h3, not_lt.mp h4]
    · simp [not_le.mp h1]
  · have hd : discriminant ⟨0,0,5⟩ ⟨0,0,1⟩ ⟨0,0,0⟩ 1 = 4 := by
      norm_num [discriminant, quadA, quadB, quadC, Vec3.dot, Vec3.sub]
    have h1 : rootT1 ⟨0,0,5⟩ ⟨0,0,1⟩ ⟨0,0,0⟩ 1 = -6 := by
      norm_num [rootT1, hd, sqrt_four, quadA, quadB, Vec3.dot, Vec3.sub]
    have h2 : rootT2 ⟨0,0,5⟩ ⟨0,0,1⟩ ⟨0,0,0⟩ 1 = -4 := by
      norm_num [rootT2, hd, sqrt_four, quadA, quadB, Vec3.dot, Vec3.sub]
    rw [calculateIntersection, if_pos (by rw [hd]; norm_num)]
    rw [if_neg (by rw [h1]; norm_num), if_neg (by rw [h1]; norm_num),
      if_neg (by rw [h2]; norm_num)]

/-- Claim C4: whenever the discriminant is non-negative and both roots
`t1, t2` are positive (ray origin outside the sphere),
`calculateIntersection` selects `t = min t1 t2`, the near intersection;
concretely, for the unit sphere at the origin and a ray from `(0,0,3)` in
direction `(0,0,-1)` it returns position `(0,0,1)` with normal `(0,0,1)`,
not the far point `(0,0,-1)`. -/
theorem intersect_near_root :
    (∀ o d s : Vec3, ∀ r : ℝ, 0 ≤ discriminant o d s r → 0 < rootT1 o d s r →
      0 < rootT2 o d s r →
      calculateIntersection o d s r =
        some (surfaceAt o d s r (min (rootT1 o d s r) (rootT2 o d s r)))) ∧
    calculateIntersection ⟨0,0,3⟩ ⟨0,0,-1⟩ ⟨0,0,0⟩ 1 =
      some ⟨⟨0,0,1⟩, ⟨0,0,1⟩, ⟨0,0,1⟩⟩ := by
  constructor
  · intro o d s r hdisc ht1 ht2
    rw [calculateIntersection, if_pos hdisc, if_pos ⟨ht1, ht2⟩]
  · have hd : discriminant ⟨0,0,3⟩ ⟨0,0,-1⟩ ⟨0,0,0⟩ 1 = 4 := by
      norm_num [discriminant, quadA, quadB, quadC, Vec3.dot, Vec3.sub]
    have h1 : rootT1 ⟨0,0,3⟩ ⟨0,0,-1⟩ ⟨0,0,0⟩ 1 = 2 := by
      norm_num [rootT1, hd, sqrt_four, quadA, quadB, Vec3.dot, Vec3.sub]
    have h2 : rootT2 ⟨0,0,3⟩ ⟨0,0,-1⟩ ⟨0,0,0⟩ 1 = 4 := by
      norm_num [rootT2, hd, sqrt_four, quadA, quadB, Vec3.dot, Vec3.sub]
    rw [calculateIntersection, if_pos (by rw [hd]; norm_num),
      if_pos (by rw [h1, h2]; norm_num), h1, h2]
    norm_num [surfaceAt, Vec3.add, Vec3.sub, Vec3.smul, Vec3.normalize, Vec3.length,
      Vec3.dot, Real.sqrt_one]

/-- Claim C1, evaluation at the failing input (code bug): for sphere
center `(0,0,0)` with radius `2` and a ray with origin `(0,0,0)` and
direction `(1,0,0)`, the roots are `t1 = -2` and `t2 = 2`, and
`calculateIntersection` does select the single positive root — the result
is the surface point `(2,0,0)`, not a miss and not `(-2,0,0)` — but the
returned `normal` field is `(2,0,0)`, not the claimed unit normal
`(1,0,0)`, because `normal.multiplyScalar(radius)` at `part_003` line 230
scales the normalized vector in place before it is returned. -/
theorem intersect_inside_eval :
    calculateIntersection ⟨0,0,0⟩ ⟨1,0,0⟩ ⟨0,0,0⟩ 2 =
      some ⟨⟨2,0,0⟩, ⟨2,0,0⟩, ⟨2,0,0⟩⟩ ∧
    rootT1 ⟨0,0,0⟩ ⟨1,0,0⟩ ⟨0,0,0⟩ 2 = -2 ∧
    rootT2 ⟨0,0,0⟩ ⟨1,0,0⟩ ⟨0,0,0⟩ 2 = 2 := by
  have hd : discriminant ⟨0,0,0⟩ ⟨1,0,0⟩ ⟨0,0,0⟩ 2 = 16 := by
    norm_num [discriminant, quadA, quadB, quadC, Vec3.dot, Vec3.sub]
  have h1 : rootT1 ⟨0,0,0⟩ ⟨1,0,0⟩ ⟨0,0,0⟩ 2 = -2 := by
    norm_num [rootT1, hd, sqrt_sixteen, quadA, quadB, Vec3.dot, Vec3.sub]
  have h2 : rootT2 ⟨0,0,0⟩ ⟨1,0,0⟩ ⟨0,0,0⟩ 2 = 2 := by
    norm_num [rootT2, hd, sqrt_sixteen, quadA, quadB, Vec3.dot, Vec3.sub]
  refine ⟨?_, h1, h2⟩
  rw [calculateIntersection, if_pos (by rw [hd]; norm_num)]
  rw [if_neg (by rw [h1]; norm_num), if_neg (by rw [h1]; norm_num),
    if_pos (by rw [h2]; norm_num), h2]
  norm_num [surfaceAt, Vec3.add, Vec3.sub, Vec3.smul, Vec3.normalize, Vec3.length,
    Vec3.dot, sqrt_four]

/-- Claim C6, evaluation at the failing input (code bug): for sphere
center `(0,0,0)` with radius `2` and a ray from `(0,0,3)` in direction
`(0,0,-1)`, the returned position `(0,0,2)` does lie on the sphere
(distance from the center is `2`), but the returned `normal` field is
`(0,0,2)`: its dot product with itself is `4`, so it is not a unit vector
and not `(position - center) / radius`, again because
`normal.multiplyScalar(radius)` mutates the normalized vector in place.
The claimed invariants hold only when the radius is `1` (the value
hard-coded in the repository). -/
theorem surface_invariant_eval :
    calculateIntersection ⟨0,0,3⟩ ⟨0,0,-1⟩ ⟨0,0,0⟩ 2 =
      some ⟨⟨0,0,2⟩, ⟨0,0,2⟩, ⟨0,0,2⟩⟩ ∧
    Vec3.length (Vec3.sub ⟨0,0,2⟩ ⟨0,0,0⟩) = 2 ∧
    Vec3.dot ⟨0,0,2⟩ ⟨0,0,2⟩ = 4 := by
  have hd : discriminant ⟨0,0,3⟩ ⟨0,0,-1⟩ ⟨0,0,0⟩ 2 = 16 := by
    norm_num [discriminant, quadA, quadB, quadC, Vec3.dot, Vec3.sub]
  have h1 : rootT1 ⟨0,0,3⟩ ⟨0,0,-1⟩ ⟨0,0,0⟩ 2 = 1 := by
    norm_num [rootT1, hd, sqrt_sixteen, quadA, quadB, Vec3.dot, Vec3.sub]
  have h2 : rootT2 ⟨0,0,3⟩ ⟨0,0,-1⟩ ⟨0,0,0⟩ 2 = 5 := by
    norm_num [rootT2, hd, sqrt_sixteen, quadA, quadB, Vec3.dot, Vec3.sub]
  refine ⟨?_, ?_, by norm_num [Vec3.dot]⟩
  · rw [calculateIntersection, if_pos (by rw [hd]; norm_num),
      if_pos (by rw [h1, h2]; norm_num), h1, h2]
    norm_num [surfaceAt, Vec3.add, Vec3.sub, Vec3.smul, Vec3.normalize, Vec3.length,
      Vec3.dot, sqrt_four]
  · norm_num [Vec3.length, Vec3.sub, Vec3.dot, sqrt_four]

/-- Claim C8: for a unit ray direction and positive radius, the
`EuropaSphere.tsx` revision (`intersectionEffect`, unconditional
`min t1 t2`) and the `part_003` revision (`calculateIntersection`, with
the inside/outside branch) agree whenever both roots are positive, and
disagree whenever the discriminant is non-negative (so the roots are
real) but at most one root is positive. -/
theorem revisions_comparison (o d s : Vec3) (r : ℝ) (hd : Vec3.dot d d = 1)
    (hr : 0 < r) :
    (0 < rootT1 o d s r → 0 < rootT2 o d s r →
      intersectionEffect o d s r = calculateIntersection o d s r) ∧
    (0 ≤ discriminant o d s r → ¬(0 < rootT1 o d s r ∧ 0 < rootT2 o d s r) →
      intersectionEffect o d s r ≠ calculateIntersection o d s r) := by
  have hA : quadA d = 1 := by rw [quadA]; exact hd
  constructor
  · intro ht1 ht2
    by_cases hdisc : discriminant o d s r ≥ 0
    · rw [intersectionEffect, calculateIntersection, if_pos hdisc, if_pos hdisc,
        if_pos ⟨ht1, ht2⟩]
    · rw [intersectionEffect, calculateIntersection, if_neg hdisc, if_neg hdisc]
  · intro hdisc hnot
    have hle := rootT1_le_rootT2 o d s r hA
    have h3 : ¬ 0 < rootT1 o d s r := fun h => hnot ⟨h, lt_of_lt_of_le h hle⟩
    rw [intersectionEffect, calculateIntersection, if_pos hdisc, if_pos hdisc,
      if_neg hnot, if_neg h3]
    by_cases h4 : 0 < rootT2 o d s r
    · rw [if_pos h4, min_eq_left hle]
      intro heq
      have hsp := Option.some.inj heq
      have hpos := congrArg SurfacePoint.position hsp
      rw [surfaceAt_position o d s r _ hr hA (rootT1_quad o d s r hA hdisc),
        surfaceAt_position o d s r _ hr hA (rootT2_quad o d s r hA hdisc)] at hpos
      exact point_ne_of_ne o d _ _ hA (ne_of_lt (lt_of_le_of_lt (not_lt.mp h3) h4)) hpos
    · rw [if_neg h4]
      simp

theorem revisions_comparison_witness :
    intersectionEffect ⟨0,0,3⟩ ⟨0,0,1⟩ ⟨0,0,0⟩ 1 ≠
      calculateIntersection ⟨0,0,3⟩ ⟨0,0,1⟩ ⟨0,0,0⟩ 1 := by
  have hd4 : discriminant ⟨0,0,3⟩ ⟨0,0,1⟩ ⟨0,0,0⟩ 1 = 4 := by
    norm_num [discriminant, quadA, quadB, quadC, Vec3.dot, Vec3.sub]
  refine (revisions_comparison ⟨0,0,3⟩ ⟨0,0,1⟩ ⟨0,0,0⟩ 1
    (by norm_num [Vec3.dot]) (by norm_num)).2 (by rw [hd4]; norm_num) ?_
  have h1 : rootT1 ⟨0,0,3⟩ ⟨0,0,1⟩ ⟨0,0,0⟩ 1 = -4 := by
    norm_num [rootT1, hd4, sqrt_four, quadA, quadB, Vec3.dot, Vec3.sub]
  rw [h1]
  norm_num

lemma rad_deg_cancel (x : ℝ) : x * Real.pi / 180 * (180 / Real.pi) = x := by
  field_simp

lemma pi_half_deg : Real.pi / 2 * (180 / Real.pi) = 90 := by
  field_simp
  ring

lemma neg_pi_half_deg : -(Real.pi / 2) * (180 / Real.pi) = -90 := by
  field_simp
  ring

lemma deg90_rad : (90 : ℝ) * Real.pi / 180 = Real.pi / 2 := by ring

lemma degNeg90_rad : (-90 : ℝ) * Real.pi / 180 = -(Real.pi / 2) := by ring

lemma latLongToVector3_dot (lat long radius : ℝ) :
    Vec3.dot (latLongToVector3 lat long radius) (latLongToVector3 lat long radius) =
      radius ^ 2 := by
  simp only [latLongToVector3, Vec3.dot]
  have hs1 := Real.sin_sq_add_cos_sq (lat * Real.pi / 180)
  have hs2 := Real.sin_sq_add_cos_sq (long * Real.pi / 180)
  linear_combination (radius ^ 2 * (Real.cos (lat * Real.pi / 180)) ^ 2) * hs2 +
    radius ^ 2 * hs1

lemma latLongToVector3_length (lat long radius : ℝ) (hr : 0 ≤ radius) :
    Vec3.length (latLongToVector3 lat long radius) = radius := by
  rw [Vec3.length, latLongToVector3_dot, Real.sqrt_sq hr]

lemma atan2_bounds (y x : ℝ) : -Real.pi < atan2 y x ∧ atan2 y x ≤ Real.pi :=
  ⟨Complex.neg_pi_lt_arg _, Complex.arg_le_pi _⟩

lemma atan2_cos_sin (c θ : ℝ) (hc : 0 < c) (hθ : θ ∈ Set.Ioc (-Real.pi) Real.pi) :
    atan2 (c * Real.sin θ) (c * Real.cos θ) = θ := by
  rw [atan2]
  have h : Complex.ofReal (c * Real.cos θ) + Complex.ofReal (c * Real.sin θ) * Complex.I =
      (c : ℂ) * (Complex.cos (θ : ℝ) + Complex.sin (θ : ℝ) * Complex.I) := by
    rw [← Complex.ofReal_cos, ← Complex.ofReal_sin]
    push_cast
    ring
  rw [h]
  exact Complex.arg_mul_cos_add_sin_mul_I hc hθ

lemma wrapLong_id (x : ℝ) (h1 : -180 < x) (h2 : x ≤ 180) : wrapLong x = x := by
  simp only [wrapLong]
  rw [if_neg (by linarith : ¬ x < -180), if_neg (by linarith : ¬ x > 180)]

lemma computedLat_bounds (v : Vec3) : -90 ≤ computedLat v ∧ computedLat v ≤ 90 := by
  obtain ⟨hl, hr⟩ := Real.arcsin_mem_Icc (max (-1) (min 1 (v.y / v.length)))
  have hpos : (0 : ℝ) < 180 / Real.pi := by positivity
  rw [computedLat]
  constructor
  · have h := mul_le_mul_of_nonneg_right hl hpos.le
    rw [neg_pi_half_deg] at h
    exact h
  · have h := mul_le_mul_of_nonneg_right hr hpos.le
    rw [pi_half_deg] at h
    exact h

lemma computedLong_bounds (v : Vec3) :
    -180 < computedLong v ∧ computedLong v ≤ 180 := by
  obtain ⟨hl, hr⟩ := atan2_bounds (v.z / v.length) (v.x / v.length)
  have hpos : (0 : ℝ) < 180 / Real.pi := by positivity
  rw [computedLong]
  constructor
  · have h := mul_lt_mul_of_pos_right hl hpos
    have hne : -Real.pi * (180 / Real.pi) = -180 := by
      field_simp
      ring
    rw [hne] at h
    exact h
  · have h := mul_le_mul_of_nonneg_right hr hpos.le
    have hpi : Real.pi * (180 / Real.pi) = 180 := by
      field_simp
    rw [hpi] at h
    exact h

lemma zero_length : Vec3.length ⟨0, 0, 0⟩ = 0 := by
  rw [Vec3.length, Vec3.dot]
  norm_num

lemma unitX : latLongToVector3 0 0 1 = ⟨1, 0, 0⟩ := by
  rw [latLongToVector3]
  norm_num

lemma atan2_zero_one : atan2 0 1 = 0 := by
  rw [atan2]
  push_cast
  simp

/-- Claim C3, counterexample: `vectorToLatLong` applied to the zero
vector does not fail with any error the caller can see — it returns the
ordinary `GeoCoordinate` `(0, 0)`, the very value it also returns for the
genuine surface point `latLongToVector3 0 0 1 = (1,0,0)`.  No
`DegenerateInputError` exists anywhere in the repository; the guard at
`utils.ts` lines 84-87 logs to the console and returns `{lat:0, long:0}`. -/
theorem zero_vector_counterexample :
    vectorToLatLong ⟨0, 0, 0⟩ 1 = ⟨0, 0⟩ ∧
    vectorToLatLong ⟨0, 0, 0⟩ 1 = vectorToLatLong (latLongToVector3 0 0 1) 1 := by
  have hzero : vectorToLatLong ⟨0, 0, 0⟩ 1 = ⟨0, 0⟩ := by
    simp only [vectorToLatLong]
    rw [if_pos zero_length]
  refine ⟨hzero, ?_⟩
  rw [hzero, unitX]
  have hlen : Vec3.length ⟨1, 0, 0⟩ = 1 := by
    rw [Vec3.length, Vec3.dot]
    norm_num
  have hlat : computedLat ⟨1, 0, 0⟩ = 0 := by
    rw [computedLat, hlen]
    norm_num [Real.arcsin_zero]
  have hlong : computedLong ⟨1, 0, 0⟩ = 0 := by
    rw [computedLong, hlen]
    norm_num [atan2_zero_one]
  simp only [vectorToLatLong, hlat, hlong]
  rw [if_neg (by rw [hlen]; norm_num), if_neg (by norm_num), wrapLong_id 0 (by norm_num) (by norm_num)]

/-- Claim C3, amended: `vectorToLatLong` applied to a zero-length vector
does not raise a caller-visible error; for every radius it returns the
fallback `GeoCoordinate` `(0, 0)` (after logging to the console), which is
indistinguishable from the valid conversion of the point `(1,0,0)`. -/
theorem zero_vector_fallback (radius : ℝ) :
    vectorToLatLong ⟨0, 0, 0⟩ radius = ⟨0, 0⟩ := by
  simp only [vectorToLatLong]
  rw [if_pos zero_length]

/-- Claim C9: `latLongToVector3` computes
`x = radius * cos lat * cos long`, `y = radius * sin lat`,
`z = radius * cos lat * sin long` after degree-to-radian conversion;
hence `(0,0,1)` maps to `(1,0,0)`, `(90,0,1)` to `(0,1,0)`, `(0,90,1)` to
`(0,0,1)`; and for every input with non-negative radius the result lies
at distance exactly `radius` from the origin.  In the real-number model
every input produces a (finite) point — the operation is total. -/
theorem geo_to_point_formulas :
    (∀ lat long radius : ℝ,
      latLongToVector3 lat long radius =
        ⟨radius * Real.cos (lat * Real.pi / 180) * Real.cos (long * Real.pi / 180),
         radius * Real.sin (lat * Real.pi / 180),
         radius * Real.cos (lat * Real.pi / 180) * Real.sin (long * Real.pi / 180)⟩) ∧
    latLongToVector3 0 0 1 = ⟨1, 0, 0⟩ ∧
    latLongToVector3 90 0 1 = ⟨0, 1, 0⟩ ∧
    latLongToVector3 0 90 1 = ⟨0, 0, 1⟩ ∧
    (∀ lat long radius : ℝ, 0 ≤ radius →
      Vec3.length (latLongToVector3 lat long radius) = radius) := by
  refine ⟨fun lat long radius => rfl, unitX, ?_, ?_, fun lat long radius hr =>
    latLongToVector3_length lat long radius hr⟩
  · rw [latLongToVector3, deg90_rad]
    norm_num [Real.cos_pi_div_two, Real.sin_pi_div_two]
  · rw [latLongToVector3]
    norm_num [deg90_rad, Real.cos_pi_div_two, Real.sin_pi_div_two]

/-- Claim C10: for every non-zero input vector and any radius argument,
`vectorToLatLong` returns a latitude in `[-90, 90]` (from `asin` of the
clamped normalized `y` component) and a longitude in the half-open range
`(-180, 180]` (from `atan2 z x` wrapped into that range). -/
theorem point_to_geo_ranges (v : Vec3) (radius : ℝ) (hv : v ≠ ⟨0, 0, 0⟩) :
    -90 ≤ (vectorToLatLong v radius).lat ∧ (vectorToLatLong v radius).lat ≤ 90 ∧
    -180 < (vectorToLatLong v radius).long ∧ (vectorToLatLong v radius).long ≤ 180 := by
  obtain ⟨hla, hlb⟩ := computedLat_bounds v
  obtain ⟨hlo1, hlo2⟩ := computedLong_bounds v
  have hwrap := wrapLong_id (computedLong v) hlo1 hlo2
  simp only [vectorToLatLong]
  split_ifs with h0 hpole
  · norm_num
  · exact ⟨hla, hlb, by norm_num, by norm_num⟩
  · rw [hwrap]
    exact ⟨hla, hlb, hlo1, hlo2⟩

theorem point_to_geo_ranges_witness :
    -90 ≤ (vectorToLatLong ⟨1, 2, 2⟩ 7).lat ∧ (vectorToLatLong ⟨1, 2, 2⟩ 7).lat ≤ 90 ∧
    -180 < (vectorToLatLong ⟨1, 2, 2⟩ 7).long ∧ (vectorToLatLong ⟨1, 2, 2⟩ 7).long ≤ 180 :=
  point_to_geo_ranges ⟨1, 2, 2⟩ 7 (by simp)

lemma northPoleVec (long radius : ℝ) :
    latLongToVector3 90 long radius = ⟨0, radius, 0⟩ := by
  rw [latLongToVector3, deg90_rad]
  norm_num [Real.cos_pi_div_two, Real.sin_pi_div_two]

lemma southPoleVec (long radius : ℝ) :
    latLongToVector3 (-90) long radius = ⟨0, -radius, 0⟩ := by
  rw [latLongToVector3, degNeg90_rad]
  norm_num [Real.cos_neg, Real.sin_neg, Real.cos_pi_div_two, Real.sin_pi_div_two]

lemma axisLen (radius : ℝ) (hr : 0 ≤ radius) (s : ℝ) (hs : s * s = radius * radius) :
    Vec3.length ⟨0, s, 0⟩ = radius := by
  have h : Vec3.dot ⟨0, s, 0⟩ ⟨0, s, 0⟩ = radius ^ 2 := by
    simp only [Vec3.dot]
    nlinarith [hs]
  rw [Vec3.length, h, Real.sqrt_sq hr]

/-- Claim C7: for every longitude and every positive radius, converting
the north pole `(90, long)` or the south pole `(-90, long)` to a point
and back yields longitude `0`; and in general, whenever the computed
latitude is within `1e-10` degrees of plus or minus `90`, the returned
longitude is forced to `0`. -/
theorem pole_longitude_zero :
    (∀ long radius : ℝ, 0 < radius →
      (vectorToLatLong (latLongToVector3 90 long radius) radius).long = 0 ∧
      (vectorToLatLong (latLongToVector3 (-90) long radius) radius).long = 0) ∧
    (∀ (v : Vec3) (radius : ℝ), Vec3.length v ≠ 0 →
      |(|computedLat v| - 90)| < 1 / 10 ^ 10 →
      (vectorToLatLong v radius).long = 0) := by
  constructor
  · intro long radius hr
    have hlenN : Vec3.length ⟨0, radius, 0⟩ = radius := axisLen radius hr.le radius rfl
    have hlenS : Vec3.length ⟨0, -radius, 0⟩ = radius :=
      axisLen radius hr.le (-radius) (by ring)
    constructor
    · have hlat : computedLat ⟨0, radius, 0⟩ = 90 := by
        rw [computedLat, hlenN]
        simp only
        rw [div_self hr.ne']
        norm_num [Real.arcsin_one]
        exact pi_half_deg
      rw [northPoleVec]
      simp only [vectorToLatLong, hlat]
      rw [if_neg (by rw [hlenN]; exact hr.ne'), if_pos (by norm_num)]
    · have hlat : computedLat ⟨0, -radius, 0⟩ = -90 := by
        rw [computedLat, hlenS]
        simp only
        rw [neg_div, div_self hr.ne']
        norm_num [Real.arcsin_neg_one]
        exact pi_half_deg
      rw [southPoleVec]
      simp only [vectorToLatLong, hlat]
      rw [if_neg (by rw [hlenS]; exact hr.ne'), if_pos (by norm_num)]
  · intro v radius hne hcond
    simp only [vectorToLatLong]
    rw [if_neg hne, if_pos hcond]

theorem pole_longitude_zero_witness :
    (vectorToLatLong (latLongToVector3 90 123 1) 1).long = 0 :=
  (pole_longitude_zero.1 123 1 (by norm_num)).1

lemma computedLat_roundtrip (lat long radius : ℝ) (hr : 0 < radius)
    (hphia : -(Real.pi / 2) ≤ lat * Real.pi / 180)
    (hphib : lat * Real.pi / 180 ≤ Real.pi / 2) :
    computedLat (latLongToVector3 lat long radius) = lat := by
  rw [computedLat, latLongToVector3_length lat long radius hr.le]
  simp only [latLongToVector3]
  rw [mul_div_cancel_left₀ _ hr.ne']
  rw [min_eq_right (Real.sin_le_one _), max_eq_right (Real.neg_one_le_sin _)]
  rw [Real.arcsin_sin hphia hphib, rad_deg_cancel]

lemma computedLong_roundtrip (lat long radius : ℝ) (hr : 0 < radius)
    (hcos : 0 < Real.cos (lat * Real.pi / 180))
    (hth : long * Real.pi / 180 ∈ Set.Ioc (-Real.pi) Real.pi) :
    computedLong (latLongToVector3 lat long radius) = long := by
  rw [computedLong, latLongToVector3_length lat long radius hr.le]
  simp only [latLongToVector3]
  rw [mul_assoc radius, mul_div_cancel_left₀ _ hr.ne',
    mul_assoc radius, mul_div_cancel_left₀ _ hr.ne']
  rw [atan2_cos_sin _ _ hcos hth, rad_deg_cancel]

/-- Claim C5: round trip — for every `lat` in `[-89.999, 89.999]`,
`long` in `(-180, 180]` and positive radius (in particular the radii
`0.5`, `1` and `100` named by the spec),
`vectorToLatLong (latLongToVector3 lat long radius) radius` equals
`(lat, long)` within `1e-6` absolute tolerance (in the real-number model
the round trip is exact). -/
theorem round_trip (lat long radius : ℝ) (h1 : -89.999 ≤ lat) (h2 : lat ≤ 89.999)
    (h3 : -180 < long) (h4 : long ≤ 180) (hr : 0 < radius) :
    |(vectorToLatLong (latLongToVector3 lat long radius) radius).lat - lat| ≤ 1 / 10 ^ 6 ∧
    |(vectorToLatLong (latLongToVector3 lat long radius) radius).long - long| ≤ 1 / 10 ^ 6 := by
  have hpi := Real.pi_pos
  have hp1 : (lat + 90) * Real.pi > 0 := mul_pos (by linarith) hpi
  have hp2 : (90 - lat) * Real.pi > 0 := mul_pos (by linarith) hpi
  have hphia : -(Real.pi / 2) < lat * Real.pi / 180 := by linarith
  have hphib : lat * Real.pi / 180 < Real.pi / 2 := by linarith
  have hcos : 0 < Real.cos (lat * Real.pi / 180) :=
    Real.cos_pos_of_mem_Ioo ⟨hphia, hphib⟩
  have hq1 : (long + 180) * Real.pi > 0 := mul_pos (by linarith) hpi
  have hq2 : 0 ≤ (180 - long) * Real.pi := mul_nonneg (by linarith) hpi.le
  have hth : long * Real.pi / 180 ∈ Set.Ioc (-Real.pi) Real.pi :=
    ⟨by linarith, by linarith⟩
  have hlat := computedLat_roundtrip lat long radius hr hphia.le hphib.le
  have hlong := computedLong_roundtrip lat long radius hr hcos hth
  have hlen := latLongToVector3_length lat long radius hr.le
  have hpole : ¬ |(|lat| - 90)| < 1 / 10 ^ 10 := by
    have habs : |lat| ≤ 89.999 := abs_le.mpr ⟨by linarith, h2⟩
    have h0 : |(|lat| - 90)| = 90 - |lat| := by
      rw [abs_of_nonpos (by linarith : |lat| - 90 ≤ 0)]
      ring
    rw [h0]
    push_neg
    linarith
  have hkey : vectorToLatLong (latLongToVector3 lat long radius) radius = ⟨lat, long⟩ := by
    simp only [vectorToLatLong, hlat, hlong]
    rw [hlen]
    rw [if_neg hr.ne', if_neg hpole, wrapLong_id long h3 h4]
  rw [hkey]
  norm_num

theorem intersect_none_iff_witness :
    calculateIntersection ⟨0,0,9⟩ ⟨1,0,0⟩ ⟨0,0,0⟩ 2 = none ↔
      discriminant ⟨0,0,9⟩ ⟨1,0,0⟩ ⟨0,0,0⟩ 2 < 0 ∨
        (rootT1 ⟨0,0,9⟩ ⟨1,0,0⟩ ⟨0,0,0⟩ 2 ≤ 0 ∧
          rootT2 ⟨0,0,9⟩ ⟨1,0,0⟩ ⟨0,0,0⟩ 2 ≤ 0) :=
  intersect_none_iff.1 ⟨0,0,9⟩ ⟨1,0,0⟩ ⟨0,0,0⟩ 2

theorem intersect_near_root_witness :
    calculateIntersection ⟨0,0,3⟩ ⟨0,0,-1⟩ ⟨0,0,0⟩ 1 =
      some (surfaceAt ⟨0,0,3⟩ ⟨0,0,-1⟩ ⟨0,0,0⟩ 1
        (min (rootT1 ⟨0,0,3⟩ ⟨0,0,-1⟩ ⟨0,0,0⟩ 1)
          (rootT2 ⟨0,0,3⟩ ⟨0,0,-1⟩ ⟨0,0,0⟩ 1))) := by
  have hd : discriminant ⟨0,0,3⟩ ⟨0,0,-1⟩ ⟨0,0,0⟩ 1 = 4 := by
    norm_num [discriminant, quadA, quadB, quadC, Vec3.dot, Vec3.sub]
  have h1 : rootT1 ⟨0,0,3⟩ ⟨0,0,-1⟩ ⟨0,0,0⟩ 1 = 2 := by
    norm_num [rootT1, hd, sqrt_four, quadA, quadB, Vec3.dot, Vec3.sub]
  have h2 : rootT2 ⟨0,0,3⟩ ⟨0,0,-1⟩ ⟨0,0,0⟩ 1 = 4 := by
    norm_num [rootT2, hd, sqrt_four, quadA, quadB, Vec3.dot, Vec3.sub]
  exact intersect_near_root.1 ⟨0,0,3⟩ ⟨0,0,-1⟩ ⟨0,0,0⟩ 1
    (by rw [hd]; norm_num) (by rw [h1]; norm_num) (by rw [h2]; norm_num)

theorem zero_vector_fallback_witness :
    vectorToLatLong ⟨0, 0, 0⟩ 2 = ⟨0, 0⟩ :=
  zero_vector_fallback 2

theorem geo_to_point_formulas_witness :
    Vec3.length (latLongToVector3 30 45 2) = 2 :=
  geo_to_point_formulas.2.2.2.2 30 45 2 (by norm_num)

theorem round_trip_witness :
    |(vectorToLatLong (latLongToVector3 45 90 1) 1).lat - 45| ≤ 1 / 10 ^ 6 ∧
    |(vectorToLatLong (latLongToVector3 45 90 1) 1).long - 90| ≤ 1 / 10 ^ 6 :=
  round_trip 45 90 1 (by norm_num) (by norm_num) (by norm_num) (by norm_num)
    (by norm_num)
